import Mathlib

/-!
Shallow embedding of the MPD protocol client in `src/mpd.rs` of the
`encore` repository.  Lines of a server response are modelled as Lean
`String`s (one per `next_line()` call, newline stripped), and the byte
stream used by the handshake as a `List Char` (the protocol is ASCII).
Rust byte-prefix matching (`expand!([@b"file: ", ..])`) on an ASCII
prefix agrees with character-prefix matching, and Rust byte slicing
`line[n..]` after such a match agrees with dropping `n` characters, so
prefixes and suffix extraction are modelled on the character list of
the string.  Fallible Rust code (`bail!`, `parse()?`) is modelled with
`Except DecodeErr`.
-/

deriving instance DecidableEq for Except

namespace Encore

/-- Prefix test on strings, modelling Rust's byte-prefix match for ASCII prefixes. -/
def strStartsWith (p s : String) : Bool :=
  p.data.isPrefixOf s.data

/-- Drop the first `n` characters, modelling Rust's `line[n..]` slicing after an
ASCII prefix of length `n` matched. -/
def strDrop (n : Nat) (s : String) : String :=
  String.mk (s.data.drop n)

/-- Numeric value of a decimal digit character. -/
def digitToNat (c : Char) : Nat := c.toNat - 48

/-- All characters are decimal digits. -/
def allDigits (cs : List Char) : Bool := cs.all (·.isDigit)

/-- Value of a digit string, most significant digit first. -/
def digitsToNat (cs : List Char) : Nat :=
  cs.foldl (fun a c => 10 * a + digitToNat c) 0

/-- Unsigned-integer parsing as Rust's `FromStr` for unsigned integer types:
an optional leading `+`, then one or more decimal digits, nothing else. -/
def parseNatCore : List Char → Option Nat
  | [] => none
  | '+' :: cs =>
    match cs with
    | [] => none
    | _ => if allDigits cs then some (digitsToNat cs) else none
  | cs => if allDigits cs then some (digitsToNat cs) else none

/-- Rust `str::parse::<usize>()` (64-bit `usize`): fails on overflow. -/
def parseUsize (s : String) : Option Nat :=
  (parseNatCore s.data).bind fun n => if n < 2 ^ 64 then some n else none

/-- Rust `str::parse::<u16>()`: fails on overflow past `u16::MAX`. -/
def parseU16 (s : String) : Option Nat :=
  (parseNatCore s.data).bind fun n => if n < 2 ^ 16 then some n else none

/-- Split a character list at the first `'.'`, if any. -/
def splitAtDot (cs : List Char) : List Char × Option (List Char) :=
  match cs.span (· ≠ '.') with
  | (i, []) => (i, none)
  | (i, _ :: f) => (i, some f)

/-- Parse an unsigned decimal literal `d*[.d*]` (at least one digit overall) into
`(n, k)` with value `n / 10 ^ k`.  This models the plain-decimal forms accepted
by Rust's `f32` parsing (`"12"`, `"12.6"`, `"12."`, `".5"`). -/
def parseDecimalParts (cs : List Char) : Option (Nat × Nat) :=
  match splitAtDot cs with
  | (i, none) => if !i.isEmpty && allDigits i then some (digitsToNat i, 0) else none
  | (i, some f) =>
    if (!i.isEmpty || !f.isEmpty) && allDigits i && allDigits f then
      some (digitsToNat (i ++ f), f.length)
    else none

/-- Round `n / 10 ^ k` to the nearest integer, halves away from zero
(the rounding of Rust's `f32::round` on nonnegative values). -/
def roundHalfUpDiv (n k : Nat) : Nat := (2 * n + 10 ^ k) / (2 * 10 ^ k)

/-- Model of Rust `s.parse::<f32>()?.round() as u16` on plain decimal literals:
parse an optionally signed decimal, round halves away from zero, and saturate
into the `u16` range (Rust float-to-int `as` casts saturate; every negative
value saturates to `0`). -/
def parseElapsedU16 (s : String) : Option Nat :=
  match s.data with
  | '-' :: cs => (parseDecimalParts cs).map (fun _ => 0)
  | '+' :: cs => (parseDecimalParts cs).map (fun p => min 65535 (roundHalfUpDiv p.1 p.2))
  | cs => (parseDecimalParts cs).map (fun p => min 65535 (roundHalfUpDiv p.1 p.2))

/-- Errors of the client, as produced by `bail!` (with its message) or by a
failing numeric `parse()?`. -/
inductive DecodeErr where
  | bail (msg : String)
  | parseNum
deriving DecidableEq, Repr

/-- Player state, from `enum PlayerState` in `mpd.rs`. -/
inductive PlayerState where
  | Play
  | Pause
  | Stop
deriving DecidableEq, Repr

/-- Currently loaded song, from `struct Song` (`pos: usize`, `elapsed: u16`). -/
structure Song where
  pos : Nat
  elapsed : Nat
deriving DecidableEq, Repr

/-- Player status snapshot, from `struct Status`. -/
structure Status where
  «repeat» : Bool
  random : Bool
  single : Option Bool
  consume : Bool
  queue_len : Nat
  state : PlayerState
  song : Option Song
deriving DecidableEq, Repr

/-- One playlist entry, from `struct Track` (`time: u16`). -/
structure Track where
  file : String
  artist : Option String
  album : Option String
  title : Option String
  time : Nat
deriving DecidableEq, Repr

/-! Status decoder (`Client::status`). -/

/-- Accumulator of the `status` read loop: the mutable locals of
`Client::status` before the loop. -/
structure StatusAcc where
  «repeat» : Option Bool
  random : Option Bool
  single : Option (Option Bool)
  consume : Option Bool
  queue_len : Option Nat
  state : PlayerState
  pos : Option Nat
  elapsed : Option Nat
deriving DecidableEq, Repr

/-- Initial accumulator of `Client::status`. -/
def statusInit : StatusAcc :=
  ⟨none, none, none, none, none, .Stop, none, none⟩

/-- One non-`OK` iteration of the `status` match, in source arm order. -/
def statusStep (a : StatusAcc) (l : String) : Except DecodeErr StatusAcc :=
  if l = "repeat: 0" then .ok { a with «repeat» := some false }
  else if l = "repeat: 1" then .ok { a with «repeat» := some true }
  else if l = "random: 0" then .ok { a with random := some false }
  else if l = "random: 1" then .ok { a with random := some true }
  else if l = "single: 0" then .ok { a with single := some (some false) }
  else if l = "single: 1" then .ok { a with single := some (some true) }
  else if l = "single: oneshot" then .ok { a with single := some none }
  else if l = "consume: 0" then .ok { a with consume := some false }
  else if l = "consume: 1" then .ok { a with consume := some true }
  else if strStartsWith "playlistlength: " l then
    match parseUsize (strDrop 16 l) with
    | some n => .ok { a with queue_len := some n }
    | none => .error .parseNum
  else if l = "state: play" then .ok { a with state := .Play }
  else if l = "state: pause" then .ok { a with state := .Pause }
  else if strStartsWith "song: " l then
    match parseUsize (strDrop 6 l) with
    | some n => .ok { a with pos := some n }
    | none => .error .parseNum
  else if strStartsWith "elapsed: " l then
    match parseElapsedU16 (strDrop 9 l) with
    | some n => .ok { a with elapsed := some n }
    | none => .error .parseNum
  else .ok a

/-- The `status` read loop over a list of response lines. -/
def statusLoop : StatusAcc → List String → Except DecodeErr StatusAcc
  | a, [] => .ok a
  | a, l :: ls =>
    if l = "OK" then .ok a
    else
      match statusStep a l with
      | .ok a' => statusLoop a' ls
      | .error e => .error e

/-- The post-loop construction of `Client::status`: all five required fields
or `bail!("incomplete status response")`; the song present iff both `pos`
and `elapsed` were set. -/
def statusFinish (a : StatusAcc) : Except DecodeErr Status :=
  match a.«repeat», a.random, a.single, a.consume, a.queue_len with
  | some r, some rd, some sg, some c, some q =>
    .ok { «repeat» := r, random := rd, single := sg, consume := c, queue_len := q,
          state := a.state,
          song :=
            match a.pos, a.elapsed with
            | some p, some e => some ⟨p, e⟩
            | _, _ => none }
  | _, _, _, _, _ => .error (.bail "incomplete status response")

/-- `Client::status` on a list of response lines. -/
def statusDecode (ls : List String) : Except DecodeErr Status :=
  (statusLoop statusInit ls).bind statusFinish

/-! Queue decoder (`Client::queue`). -/

/-- Accumulator of the `queue` read loop: the mutable locals of `Client::queue`. -/
structure QueueAcc where
  first : Bool
  file : Option String
  artist : Option String
  album : Option String
  title : Option String
  time : Nat
  tracks : List Track
deriving DecidableEq, Repr

/-- Initial accumulator of `Client::queue`. -/
def queueInit : QueueAcc := ⟨true, none, none, none, none, 0, []⟩

/-- One non-`OK` iteration of the `queue` match, in source arm order. -/
def queueStep (a : QueueAcc) (l : String) : Except DecodeErr QueueAcc :=
  if strStartsWith "file: " l then
    if a.first then
      .ok { first := false, file := some (strDrop 6 l), artist := none, album := none,
            title := none, time := 0, tracks := a.tracks }
    else
      match a.file with
      | some f =>
        .ok { first := false, file := some (strDrop 6 l), artist := none, album := none,
              title := none, time := 0,
              tracks := a.tracks ++ [⟨f, a.artist, a.album, a.title, a.time⟩] }
      | none => .error (.bail "incomplete playlist response")
  else if strStartsWith "Artist: " l then .ok { a with artist := some (strDrop 8 l) }
  else if strStartsWith "Album: " l then .ok { a with album := some (strDrop 7 l) }
  else if strStartsWith "Title: " l then .ok { a with title := some (strDrop 7 l) }
  else if strStartsWith "Time: " l then
    match parseU16 (strDrop 6 l) with
    | some n => .ok { a with time := n }
    | none => .error .parseNum
  else .ok a

/-- The `queue` read loop over a list of response lines. -/
def queueLoop : QueueAcc → List String → Except DecodeErr QueueAcc
  | a, [] => .ok a
  | a, l :: ls =>
    if l = "OK" then .ok a
    else
      match queueStep a l with
      | .ok a' => queueLoop a' ls
      | .error e => .error e

/-- The post-loop flush of `Client::queue`: push the in-progress track, if any. -/
def queueFinish (a : QueueAcc) : List Track :=
  match a.file with
  | some f => a.tracks ++ [⟨f, a.artist, a.album, a.title, a.time⟩]
  | none => a.tracks

/-- `Client::queue` on a list of response lines. -/
def queueDecode (ls : List String) : Except DecodeErr (List Track) :=
  (queueLoop queueInit ls).map queueFinish

/-! Idle decoder (`Client::idle`). -/

/-- The `idle` read loop, carrying the `status` and `queue` flags, with the
arms in source order. -/
def idleLoop : Bool → Bool → List String → Bool × Bool
  | st, q, [] => (st, q)
  | st, q, l :: ls =>
    if l = "changed: options" then idleLoop true q ls
    else if l = "changed: player" then idleLoop true q ls
    else if l = "changed: playlist" then idleLoop st true ls
    else if l = "OK" then (st, q)
    else idleLoop st q ls

/-- `Client::idle` on a list of response lines. -/
def idleDecode (ls : List String) : Bool × Bool := idleLoop false false ls

/-! Play and bare command (`Client::play`, `Client::command`).  Both read
lines until `OK` or an `ACK `-prefixed line and then return `Ok(())`. -/

/-- The shared read loop of `Client::play` and `Client::command`: consume
lines until a sentinel (`OK` or `ACK `-prefixed), returning the unread rest. -/
def commandLoop : List String → List String
  | [] => []
  | l :: ls =>
    if l = "OK" then ls
    else if strStartsWith "ACK " l then ls
    else commandLoop ls

/-- Result and unread rest of `Client::play` / `Client::command`: the loop
never fails, so the caller always receives `Ok(())`. -/
def commandRun (ls : List String) : Except DecodeErr Unit × List String :=
  (.ok (), commandLoop ls)

/-! Handshake (`Client::init`), over the raw character stream. -/

/-- Model of `Client::init`: read the 7-byte greeting prefix, compare it with
`OK MPD `, then read and discard the rest of the greeting line; on mismatch,
`bail!("server did not greet with a success")`.  Returns the unread rest of
the stream. -/
def init (stream : List Char) : Except DecodeErr (List Char) :=
  if stream.take 7 = "OK MPD ".data then
    .ok (((stream.drop 7).dropWhile (· ≠ '\n')).drop 1)
  else .error (.bail "server did not greet with a success")

/-! Event-level model of the read loops.  `lines.next_line().await` yields
`Ok(Some(line))`, `Ok(None)` (end of stream, modelled by the end of the
event list) or `Err(e)` (transport failure, modelled by `ioErr`).  The
source loops are `while let Ok(Some(line)) = lines.next_line().await`, so
an `Err` terminates the loop exactly like end of stream. -/

/-- One result of `next_line()`: a line, or a transport read error. -/
inductive LineEvent where
  | line (s : String)
  | ioErr
deriving DecidableEq, Repr

/-- Lines delivered before the first transport error (or the end of stream). -/
def linesUntilErr : List LineEvent → List String
  | [] => []
  | .ioErr :: _ => []
  | .line s :: es => s :: linesUntilErr es

/-- The `status` read loop over next-line events. -/
def statusLoopEv : StatusAcc → List LineEvent → Except DecodeErr StatusAcc
  | a, [] => .ok a
  | a, .ioErr :: _ => .ok a
  | a, .line l :: es =>
    if l = "OK" then .ok a
    else
      match statusStep a l with
      | .ok a' => statusLoopEv a' es
      | .error e => .error e

/-- `Client::status` over next-line events. -/
def statusDecodeEv (es : List LineEvent) : Except DecodeErr Status :=
  (statusLoopEv statusInit es).bind statusFinish

/-- The `queue` read loop over next-line events. -/
def queueLoopEv : QueueAcc → List LineEvent → Except DecodeErr QueueAcc
  | a, [] => .ok a
  | a, .ioErr :: _ => .ok a
  | a, .line l :: es =>
    if l = "OK" then .ok a
    else
      match queueStep a l with
      | .ok a' => queueLoopEv a' es
      | .error e => .error e

/-- `Client::queue` over next-line events. -/
def queueDecodeEv (es : List LineEvent) : Except DecodeErr (List Track) :=
  (queueLoopEv queueInit es).map queueFinish

/-- The `idle` read loop over next-line events. -/
def idleLoopEv : Bool → Bool → List LineEvent → Bool × Bool
  | st, q, [] => (st, q)
  | st, q, .ioErr :: _ => (st, q)
  | st, q, .line l :: es =>
    if l = "changed: options" then idleLoopEv true q es
    else if l = "changed: player" then idleLoopEv true q es
    else if l = "changed: playlist" then idleLoopEv st true es
    else if l = "OK" then (st, q)
    else idleLoopEv st q es

/-- `Client::idle` over next-line events. -/
def idleDecodeEv (es : List LineEvent) : Bool × Bool := idleLoopEv false false es

/-! Specification-level reformulation of the queue decoder, following the
words of the spec (§4.4): the lines before the sentinel are grouped at the
`file: ` boundary markers; within one group the `Artist: `, `Album: `,
`Title: ` and `Time: ` lines populate the fields of that group's track,
later lines overriding earlier ones, with `Time` parsed as an unsigned
integer and defaulting to `0` when absent; the groups are emitted in order. -/

/-- Track fields accumulated inside one `file:`-delimited group. -/
structure QFields where
  artist : Option String
  album : Option String
  title : Option String
  time : Nat
deriving DecidableEq, Repr

/-- Empty group fields: no artist, album or title, time `0`. -/
def qfInit : QFields := ⟨none, none, none, 0⟩

/-- Populate group fields from one line, as the spec words it. -/
def specFieldStep (fl : QFields) (l : String) : QFields :=
  if strStartsWith "Artist: " l then { fl with artist := some (strDrop 8 l) }
  else if strStartsWith "Album: " l then { fl with album := some (strDrop 7 l) }
  else if strStartsWith "Title: " l then { fl with title := some (strDrop 7 l) }
  else if strStartsWith "Time: " l then { fl with time := (parseU16 (strDrop 6 l)).getD 0 }
  else fl

/-- Build a track from its file name and its group's fields. -/
def mkTrack (f : String) (fl : QFields) : Track :=
  ⟨f, fl.artist, fl.album, fl.title, fl.time⟩

/-- A line that is not a `file: ` group boundary. -/
def notFile (l : String) : Bool := !(strStartsWith "file: " l)

/-- Group a sentinel-free line list at its `file: ` boundaries and build one
track per group, in order; lines before the first boundary contribute nothing. -/
def specQueueRun : List String → List Track
  | [] => []
  | l :: ls =>
    if strStartsWith "file: " l then
      mkTrack (strDrop 6 l) ((ls.takeWhile notFile).foldl specFieldStep qfInit)
        :: specQueueRun (ls.dropWhile notFile)
    else specQueueRun ls
termination_by ls => ls.length
decreasing_by
  · exact Nat.lt_succ_of_le ((List.dropWhile_suffix notFile).length_le)
  · exact Nat.lt_succ_self _

/-- Specification-level queue decode: group the lines before the first `OK`. -/
def specQueueDecode (ls : List String) : List Track :=
  specQueueRun (ls.takeWhile (fun l => l != "OK"))

/-- Fields part of a queue accumulator. -/
def fieldsOf (a : QueueAcc) : QFields := ⟨a.artist, a.album, a.title, a.time⟩

/-- Replace the fields part of a queue accumulator. -/
def setFields (a : QueueAcc) (fl : QFields) : QueueAcc :=
  { a with artist := fl.artist, album := fl.album, title := fl.title, time := fl.time }

/-! Line-classification predicates used to state the claims. -/

/-- Lines that set the `repeat` field of the status accumulator. -/
def setsRepeat (l : String) : Prop := l = "repeat: 0" ∨ l = "repeat: 1"

/-- Lines that set the `random` field of the status accumulator. -/
def setsRandom (l : String) : Prop := l = "random: 0" ∨ l = "random: 1"

/-- Lines that set the `single` field of the status accumulator. -/
def setsSingle (l : String) : Prop :=
  l = "single: 0" ∨ l = "single: 1" ∨ l = "single: oneshot"

/-- Lines that set the `consume` field of the status accumulator. -/
def setsConsume (l : String) : Prop := l = "consume: 0" ∨ l = "consume: 1"

/-- Lines that set the queue length (when their suffix parses). -/
def setsQueueLen (l : String) : Prop := strStartsWith "playlistlength: " l = true

/-- Lines that set the song position (when their suffix parses). -/
def setsSong (l : String) : Prop := strStartsWith "song: " l = true

/-- Lines that set the elapsed time (when their suffix parses). -/
def setsElapsed (l : String) : Prop := strStartsWith "elapsed: " l = true

/-- A line matching none of the exact or prefix patterns of the `status` match
(the `_ => continue` arm, except that the loop tests `OK` separately). -/
def statusUnmatched (l : String) : Prop :=
  ¬ setsRepeat l ∧ ¬ setsRandom l ∧ ¬ setsSingle l ∧ ¬ setsConsume l ∧ ¬ setsQueueLen l ∧
    l ≠ "state: play" ∧ l ≠ "state: pause" ∧ ¬ setsSong l ∧ ¬ setsElapsed l

/-- A line the status decoder ignores: neither the sentinel, nor any of the
exact or prefix patterns of the `status` match. -/
def statusIgnored (l : String) : Prop := l ≠ "OK" ∧ statusUnmatched l

/-- A line matching none of the structured prefixes of the `queue` match. -/
def queueUnmatched (l : String) : Prop :=
  strStartsWith "file: " l = false ∧ strStartsWith "Artist: " l = false ∧
    strStartsWith "Album: " l = false ∧ strStartsWith "Title: " l = false ∧
    strStartsWith "Time: " l = false

/-- A line the queue decoder ignores: neither the sentinel nor any of the
structured prefixes of the `queue` match. -/
def queueIgnored (l : String) : Prop := l ≠ "OK" ∧ queueUnmatched l

/-- A line the idle decoder ignores: neither the sentinel nor one of the three
subscribed change notifications. -/
def idleIgnored (l : String) : Prop :=
  l ≠ "OK" ∧ l ≠ "changed: options" ∧ l ≠ "changed: player" ∧ l ≠ "changed: playlist"

instance (l : String) : Decidable (setsRepeat l) := by unfold setsRepeat; infer_instance

instance (l : String) : Decidable (setsRandom l) := by unfold setsRandom; infer_instance

instance (l : String) : Decidable (setsSingle l) := by unfold setsSingle; infer_instance

instance (l : String) : Decidable (setsConsume l) := by unfold setsConsume; infer_instance

instance (l : String) : Decidable (setsQueueLen l) := by unfold setsQueueLen; infer_instance

instance (l : String) : Decidable (setsSong l) := by unfold setsSong; infer_instance

instance (l : String) : Decidable (setsElapsed l) := by unfold setsElapsed; infer_instance

instance (l : String) : Decidable (statusUnmatched l) := by
  unfold statusUnmatched; infer_instance

instance (l : String) : Decidable (statusIgnored l) := by unfold statusIgnored; infer_instance

instance (l : String) : Decidable (queueUnmatched l) := by unfold queueUnmatched; infer_instance

instance (l : String) : Decidable (queueIgnored l) := by unfold queueIgnored; infer_instance

instance (l : String) : Decidable (idleIgnored l) := by unfold idleIgnored; infer_instance

/-- `InsertIgn ign ls ls'` holds when `ls'` is `ls` with extra lines, each
satisfying `ign`, inserted at arbitrary positions. -/
inductive InsertIgn (ign : String → Prop) : List String → List String → Prop
  | nil : InsertIgn ign [] []
  | keep {l ls ls'} : InsertIgn ign ls ls' → InsertIgn ign (l :: ls) (l :: ls')
  | ins {l ls ls'} : ign l → InsertIgn ign ls ls' → InsertIgn ign ls (l :: ls')

/-- A status-response line whose numeric suffix fails to parse. -/
def badStatusNum (l : String) : Prop :=
  (setsQueueLen l ∧ parseUsize (strDrop 16 l) = none) ∨
    (setsSong l ∧ parseUsize (strDrop 6 l) = none) ∨
    (setsElapsed l ∧ parseElapsedU16 (strDrop 9 l) = none)

/-- A queue-response `Time: ` line whose numeric suffix fails to parse. -/
def badQueueNum (l : String) : Prop :=
  strStartsWith "Time: " l = true ∧ parseU16 (strDrop 6 l) = none

/-- A sentinel line of the play/command loops: `OK` or an `ACK `-prefixed line. -/
def isSentinel (l : String) : Prop := l = "OK" ∨ strStartsWith "ACK " l = true

instance (l : String) : Decidable (badStatusNum l) := by unfold badStatusNum; infer_instance

instance (l : String) : Decidable (badQueueNum l) := by unfold badQueueNum; infer_instance

instance (l : String) : Decidable (isSentinel l) := by unfold isSentinel; infer_instance

/-! Supporting lemmas. -/

/-- The idle loop computes, for each flag, the disjunction of its initial value
with the presence of a matching change line before the first `OK`. -/
lemma idleLoop_spec (ls : List String) : ∀ st q,
    idleLoop st q ls =
      (st || (ls.takeWhile (fun x => x != "OK")).any
          (fun l => l == "changed: options" || l == "changed: player"),
       q || (ls.takeWhile (fun x => x != "OK")).any (fun l => l == "changed: playlist")) := by
  induction ls with
  | nil => intro st q; simp [idleLoop]
  | cons l ls ih =>
    intro st q
    by_cases h1 : l = "changed: options"
    · subst h1; simp [idleLoop, ih]
    · by_cases h2 : l = "changed: player"
      · subst h2; simp [idleLoop, ih]
      · by_cases h3 : l = "changed: playlist"
        · subst h3; simp [idleLoop, ih]
        · by_cases h4 : l = "OK"
          · subst h4; simp [idleLoop]
          · have hne : (l != "OK") = true := by simp [h4]
            have e1 : (l == "changed: options") = false := by simp [h1]
            have e2 : (l == "changed: player") = false := by simp [h2]
            have e3 : (l == "changed: playlist") = false := by simp [h3]
            simp [idleLoop, h1, h2, h3, h4, ih, hne, e1, e2, e3]

/-- The status loop over events is the status loop over the lines delivered
before the first transport error: a read error ends the loop like end of stream. -/
lemma statusLoopEv_eq (es : List LineEvent) : ∀ a,
    statusLoopEv a es = statusLoop a (linesUntilErr es) := by
  induction es with
  | nil => intro a; rfl
  | cons e es ih =>
    intro a
    cases e with
    | ioErr => rfl
    | line l =>
      simp only [statusLoopEv, linesUntilErr, statusLoop]
      by_cases h : l = "OK"
      · simp [h]
      · simp only [h, if_false]
        cases statusStep a l with
        | ok a' => exact ih a'
        | error e => rfl

/-- The queue loop over events is the queue loop over the lines delivered
before the first transport error. -/
lemma queueLoopEv_eq (es : List LineEvent) : ∀ a,
    queueLoopEv a es = queueLoop a (linesUntilErr es) := by
  induction es with
  | nil => intro a; rfl
  | cons e es ih =>
    intro a
    cases e with
    | ioErr => rfl
    | line l =>
      simp only [queueLoopEv, linesUntilErr, queueLoop]
      by_cases h : l = "OK"
      · simp [h]
      · simp only [h, if_false]
        cases queueStep a l with
        | ok a' => exact ih a'
        | error e => rfl

/-- The idle loop over events is the idle loop over the lines delivered
before the first transport error. -/
lemma idleLoopEv_eq (es : List LineEvent) : ∀ st q,
    idleLoopEv st q es = idleLoop st q (linesUntilErr es) := by
  induction es with
  | nil => intro st q; rfl
  | cons e es ih =>
    intro st q
    cases e with
    | ioErr => rfl
    | line l =>
      simp only [idleLoopEv, linesUntilErr, idleLoop]
      by_cases h1 : l = "changed: options"
      · simp [h1, ih]
      · by_cases h2 : l = "changed: player"
        · simp [h1, h2, ih]
        · by_cases h3 : l = "changed: playlist"
          · simp [h1, h2, h3, ih]
          · by_cases h4 : l = "OK"
            · simp [h1, h2, h3, h4]
            · simp [h1, h2, h3, h4, ih]

/-- Distinct structured prefixes are mutually exclusive: a `playlistlength: `
line is not a `song: ` line. -/
lemma plen_not_song (l : String) (h : strStartsWith "playlistlength: " l = true) :
    strStartsWith "song: " l = false := by
  unfold strStartsWith at h ⊢
  rcases List.isPrefixOf_iff_prefix.mp h with ⟨t, ht⟩
  rw [← ht]; rfl

/-- A `playlistlength: ` line is not an `elapsed: ` line. -/
lemma plen_not_elapsed (l : String) (h : strStartsWith "playlistlength: " l = true) :
    strStartsWith "elapsed: " l = false := by
  unfold strStartsWith at h ⊢
  rcases List.isPrefixOf_iff_prefix.mp h with ⟨t, ht⟩
  rw [← ht]; rfl

/-- A `song: ` line is not an `elapsed: ` line. -/
lemma song_not_elapsed (l : String) (h : strStartsWith "song: " l = true) :
    strStartsWith "elapsed: " l = false := by
  unfold strStartsWith at h ⊢
  rcases List.isPrefixOf_iff_prefix.mp h with ⟨t, ht⟩
  rw [← ht]; rfl

/-- A `Time: ` line is not a `file: `, `Artist: `, `Album: ` or `Title: ` line. -/
lemma time_not_others (l : String) (h : strStartsWith "Time: " l = true) :
    strStartsWith "file: " l = false ∧ strStartsWith "Artist: " l = false ∧
      strStartsWith "Album: " l = false ∧ strStartsWith "Title: " l = false := by
  unfold strStartsWith at h ⊢
  rcases List.isPrefixOf_iff_prefix.mp h with ⟨t, ht⟩
  rw [← ht]
  exact ⟨rfl, rfl, rfl, rfl⟩

/-- Exhaustive case analysis of one status step, following the arm order of
the source `match`: exactly one arm fires and the step takes its value. -/
lemma statusStep_cases (a : StatusAcc) (l : String) :
    (l = "repeat: 0" ∧ statusStep a l = .ok { a with «repeat» := some false }) ∨
    (l = "repeat: 1" ∧ statusStep a l = .ok { a with «repeat» := some true }) ∨
    (l = "random: 0" ∧ statusStep a l = .ok { a with random := some false }) ∨
    (l = "random: 1" ∧ statusStep a l = .ok { a with random := some true }) ∨
    (l = "single: 0" ∧ statusStep a l = .ok { a with single := some (some false) }) ∨
    (l = "single: 1" ∧ statusStep a l = .ok { a with single := some (some true) }) ∨
    (l = "single: oneshot" ∧ statusStep a l = .ok { a with single := some none }) ∨
    (l = "consume: 0" ∧ statusStep a l = .ok { a with consume := some false }) ∨
    (l = "consume: 1" ∧ statusStep a l = .ok { a with consume := some true }) ∨
    (strStartsWith "playlistlength: " l = true ∧
      statusStep a l =
        match parseUsize (strDrop 16 l) with
        | some n => .ok { a with queue_len := some n }
        | none => .error .parseNum) ∨
    (l = "state: play" ∧ statusStep a l = .ok { a with state := .Play }) ∨
    (l = "state: pause" ∧ statusStep a l = .ok { a with state := .Pause }) ∨
    (strStartsWith "song: " l = true ∧
      statusStep a l =
        match parseUsize (strDrop 6 l) with
        | some n => .ok { a with pos := some n }
        | none => .error .parseNum) ∨
    (strStartsWith "elapsed: " l = true ∧
      statusStep a l =
        match parseElapsedU16 (strDrop 9 l) with
        | some n => .ok { a with elapsed := some n }
        | none => .error .parseNum) ∨
    (statusUnmatched l ∧ statusStep a l = .ok a) := by
  by_cases h1 : l = "repeat: 0"
  · exact Or.inl ⟨h1, by unfold statusStep; rw [if_pos h1]⟩
  by_cases h2 : l = "repeat: 1"
  · exact Or.inr (Or.inl ⟨h2, by unfold statusStep; rw [if_neg h1, if_pos h2]⟩)
  by_cases h3 : l = "random: 0"
  · exact Or.inr (Or.inr (Or.inl ⟨h3, by
      unfold statusStep; rw [if_neg h1, if_neg h2, if_pos h3]⟩))
  by_cases h4 : l = "random: 1"
  · exact Or.inr (Or.inr (Or.inr (Or.inl ⟨h4, by
      unfold statusStep; rw [if_neg h1, if_neg h2, if_neg h3, if_pos h4]⟩)))
  by_cases h5 : l = "single: 0"
  · exact Or.inr (Or.inr (Or.inr (Or.inr (Or.inl ⟨h5, by
      unfold statusStep; rw [if_neg h1, if_neg h2, if_neg h3, if_neg h4, if_pos h5]⟩))))
  by_cases h6 : l = "single: 1"
  · exact Or.inr (Or.inr (Or.inr (Or.inr (Or.inr (Or.inl ⟨h6, by
      unfold statusStep
      rw [if_neg h1, if_neg h2, if_neg h3, if_neg h4, if_neg h5, if_pos h6]⟩)))))
  by_cases h7 : l = "single: oneshot"
  · exact Or.inr (Or.inr (Or.inr (Or.inr (Or.inr (Or.inr (Or.inl ⟨h7, by
      unfold statusStep
      rw [if_neg h1, if_neg h2, if_neg h3, if_neg h4, if_neg h5, if_neg h6,
        if_pos h7]⟩))))))
  by_cases h8 : l = "consume: 0"
  · exact Or.inr (Or.inr (Or.inr (Or.inr (Or.inr (Or.inr (Or.inr (Or.inl ⟨h8, by
      unfold statusStep
      rw [if_neg h1, if_neg h2, if_neg h3, if_neg h4, if_neg h5, if_neg h6, if_neg h7,
        if_pos h8]⟩)))))))
  by_cases h9 : l = "consume: 1"
  · exact Or.inr (Or.inr (Or.inr (Or.inr (Or.inr (Or.inr (Or.inr (Or.inr (Or.inl ⟨h9, by
      unfold statusStep
      rw [if_neg h1, if_neg h2, if_neg h3, if_neg h4, if_neg h5, if_neg h6, if_neg h7,
        if_neg h8, if_pos h9]⟩))))))))
  by_cases h10 : strStartsWith "playlistlength: " l = true
  · refine Or.inr (Or.inr (Or.inr (Or.inr (Or.inr (Or.inr (Or.inr (Or.inr (Or.inr
      (Or.inl ⟨h10, ?_⟩)))))))))
    unfold statusStep
    rw [if_neg h1, if_neg h2, if_neg h3, if_neg h4, if_neg h5, if_neg h6, if_neg h7,
      if_neg h8, if_neg h9, if_pos h10]
  by_cases h11 : l = "state: play"
  · refine Or.inr (Or.inr (Or.inr (Or.inr (Or.inr (Or.inr (Or.inr (Or.inr (Or.inr
      (Or.inr (Or.inl ⟨h11, ?_⟩))))))))))
    unfold statusStep
    rw [if_neg h1, if_neg h2, if_neg h3, if_neg h4, if_neg h5, if_neg h6, if_neg h7,
      if_neg h8, if_neg h9, if_neg h10, if_pos h11]
  by_cases h12 : l = "state: pause"
  · refine Or.inr (Or.inr (Or.inr (Or.inr (Or.inr (Or.inr (Or.inr (Or.inr (Or.inr
      (Or.inr (Or.inr (Or.inl ⟨h12, ?_⟩)))))))))))
    unfold statusStep
    rw [if_neg h1, if_neg h2, if_neg h3, if_neg h4, if_neg h5, if_neg h6, if_neg h7,
      if_neg h8, if_neg h9, if_neg h10, if_neg h11, if_pos h12]
  by_cases h13 : strStartsWith "song: " l = true
  · refine Or.inr (Or.inr (Or.inr (Or.inr (Or.inr (Or.inr (Or.inr (Or.inr (Or.inr
      (Or.inr (Or.inr (Or.inr (Or.inl ⟨h13, ?_⟩))))))))))))
    unfold statusStep
    rw [if_neg h1, if_neg h2, if_neg h3, if_neg h4, if_neg h5, if_neg h6, if_neg h7,
      if_neg h8, if_neg h9, if_neg h10, if_neg h11, if_neg h12, if_pos h13]
  by_cases h14 : strStartsWith "elapsed: " l = true
  · refine Or.inr (Or.inr (Or.inr (Or.inr (Or.inr (Or.inr (Or.inr (Or.inr (Or.inr
      (Or.inr (Or.inr (Or.inr (Or.inr (Or.inl ⟨h14, ?_⟩)))))))))))))
    unfold statusStep
    rw [if_neg h1, if_neg h2, if_neg h3, if_neg h4, if_neg h5, if_neg h6, if_neg h7,
      if_neg h8, if_neg h9, if_neg h10, if_neg h11, if_neg h12, if_neg h13, if_pos h14]
  refine Or.inr (Or.inr (Or.inr (Or.inr (Or.inr (Or.inr (Or.inr (Or.inr (Or.inr
    (Or.inr (Or.inr (Or.inr (Or.inr (Or.inr ⟨?_, ?_⟩)))))))))))))
  · exact ⟨fun hs => hs.elim h1 h2, fun hs => hs.elim h3 h4,
      fun hs => hs.elim h5 (fun hs' => hs'.elim h6 h7), fun hs => hs.elim h8 h9,
      h10, h11, h12, h13, h14⟩
  · unfold statusStep
    rw [if_neg h1, if_neg h2, if_neg h3, if_neg h4, if_neg h5, if_neg h6, if_neg h7,
      if_neg h8, if_neg h9, if_neg h10, if_neg h11, if_neg h12, if_neg h13, if_neg h14]

/-- Frame conditions of one status step: each accumulator field is unchanged
by lines that do not set it, becomes set by lines that do, and the player
state is unchanged by lines other than the two `state:` literals. -/
lemma statusStep_fields (a : StatusAcc) (l : String) (a' : StatusAcc)
    (h : statusStep a l = .ok a') :
    (¬ setsRepeat l → a'.«repeat» = a.«repeat») ∧ (setsRepeat l → a'.«repeat».isSome = true) ∧
    (¬ setsRandom l → a'.random = a.random) ∧ (setsRandom l → a'.random.isSome = true) ∧
    (¬ setsSingle l → a'.single = a.single) ∧ (setsSingle l → a'.single.isSome = true) ∧
    (¬ setsConsume l → a'.consume = a.consume) ∧ (setsConsume l → a'.consume.isSome = true) ∧
    (¬ setsQueueLen l → a'.queue_len = a.queue_len) ∧
    (setsQueueLen l → a'.queue_len.isSome = true) ∧
    (¬ setsSong l → a'.pos = a.pos) ∧ (setsSong l → a'.pos.isSome = true) ∧
    (¬ setsElapsed l → a'.elapsed = a.elapsed) ∧ (setsElapsed l → a'.elapsed.isSome = true) ∧
    (l ≠ "state: play" → l ≠ "state: pause" → a'.state = a.state) := by
  rcases statusStep_cases a l with ⟨hc, he⟩ | ⟨hc, he⟩ | ⟨hc, he⟩ | ⟨hc, he⟩ | ⟨hc, he⟩ |
    ⟨hc, he⟩ | ⟨hc, he⟩ | ⟨hc, he⟩ | ⟨hc, he⟩ | ⟨hc, he⟩ | ⟨hc, he⟩ | ⟨hc, he⟩ |
    ⟨hc, he⟩ | ⟨hc, he⟩ | ⟨hc, he⟩
  case inl | inr.inl | inr.inr.inl | inr.inr.inr.inl | inr.inr.inr.inr.inl |
    inr.inr.inr.inr.inr.inl | inr.inr.inr.inr.inr.inr.inl |
    inr.inr.inr.inr.inr.inr.inr.inl | inr.inr.inr.inr.inr.inr.inr.inr.inl |
    inr.inr.inr.inr.inr.inr.inr.inr.inr.inr.inl |
    inr.inr.inr.inr.inr.inr.inr.inr.inr.inr.inr.inl =>
    rw [he] at h
    injection h with h
    subst h
    subst hc
    refine ⟨?_, ?_, ?_, ?_, ?_, ?_, ?_, ?_, ?_, ?_, ?_, ?_, ?_, ?_, ?_⟩ <;> first
    | (intros; rfl)
    | (intro hh; exact absurd hh (by decide))
    | (intro hh; exact absurd (by decide) hh)
    | (intro hh; exact absurd rfl hh)
    | (intro hh1 hh2; exact absurd rfl hh2)
  case inr.inr.inr.inr.inr.inr.inr.inr.inr.inl =>
    rw [he] at h
    cases hp : parseUsize (strDrop 16 l) with
    | none => rw [hp] at h; exact Except.noConfusion h
    | some n =>
      rw [hp] at h
      injection h with h
      subst h
      refine ⟨?_, ?_, ?_, ?_, ?_, ?_, ?_, ?_, ?_, ?_, ?_, ?_, ?_, ?_, ?_⟩ <;> first
      | (intros; rfl)
      | (intro hh; exact absurd hc hh)
      | (intro hh; rcases hh with h | h <;> (subst h; exact absurd hc (by decide)))
      | (intro hh; rcases hh with h | h | h <;> (subst h; exact absurd hc (by decide)))
      | (intro hh; exact Bool.noConfusion ((plen_not_song l hc).symm.trans hh))
      | (intro hh; exact Bool.noConfusion ((plen_not_elapsed l hc).symm.trans hh))
  case inr.inr.inr.inr.inr.inr.inr.inr.inr.inr.inr.inr.inl =>
    rw [he] at h
    cases hp : parseUsize (strDrop 6 l) with
    | none => rw [hp] at h; exact Except.noConfusion h
    | some n =>
      rw [hp] at h
      injection h with h
      subst h
      refine ⟨?_, ?_, ?_, ?_, ?_, ?_, ?_, ?_, ?_, ?_, ?_, ?_, ?_, ?_, ?_⟩ <;> first
      | (intros; rfl)
      | (intro hh; exact absurd hc hh)
      | (intro hh; rcases hh with h | h <;> (subst h; exact absurd hc (by decide)))
      | (intro hh; rcases hh with h | h | h <;> (subst h; exact absurd hc (by decide)))
      | (intro hh; exact Bool.noConfusion ((plen_not_song l hh).symm.trans hc))
      | (intro hh; exact Bool.noConfusion ((song_not_elapsed l hc).symm.trans hh))
  case inr.inr.inr.inr.inr.inr.inr.inr.inr.inr.inr.inr.inr.inl =>
    rw [he] at h
    cases hp : parseElapsedU16 (strDrop 9 l) with
    | none => rw [hp] at h; exact Except.noConfusion h
    | some n =>
      rw [hp] at h
      injection h with h
      subst h
      refine ⟨?_, ?_, ?_, ?_, ?_, ?_, ?_, ?_, ?_, ?_, ?_, ?_, ?_, ?_, ?_⟩ <;> first
      | (intros; rfl)
      | (intro hh; exact absurd hc hh)
      | (intro hh; rcases hh with h | h <;> (subst h; exact absurd hc (by decide)))
      | (intro hh; rcases hh with h | h | h <;> (subst h; exact absurd hc (by decide)))
      | (intro hh; exact Bool.noConfusion ((plen_not_elapsed l hh).symm.trans hc))
      | (intro hh; exact Bool.noConfusion ((song_not_elapsed l hh).symm.trans hc))
  case inr.inr.inr.inr.inr.inr.inr.inr.inr.inr.inr.inr.inr.inr =>
    obtain ⟨u1, u2, u3, u4, u5, u6, u7, u8, u9⟩ := hc
    rw [he] at h
    injection h with h
    subst h
    refine ⟨?_, ?_, ?_, ?_, ?_, ?_, ?_, ?_, ?_, ?_, ?_, ?_, ?_, ?_, ?_⟩ <;> first
    | (intros; rfl)
    | (intro hh; exact absurd hh u1)
    | (intro hh; exact absurd hh u2)
    | (intro hh; exact absurd hh u3)
    | (intro hh; exact absurd hh u4)
    | (intro hh; exact absurd hh u5)
    | (intro hh; exact absurd hh u8)
    | (intro hh; exact absurd hh u9)

/-- A status step on an ignored line leaves the accumulator unchanged. -/
lemma statusStep_ignored (a : StatusAcc) (l : String) (hig : statusIgnored l) :
    statusStep a l = .ok a := by
  obtain ⟨-, u1, u2, u3, u4, u5, u6, u7, u8, u9⟩ := hig
  rcases statusStep_cases a l with ⟨hc, he⟩ | ⟨hc, he⟩ | ⟨hc, he⟩ | ⟨hc, he⟩ | ⟨hc, he⟩ |
    ⟨hc, he⟩ | ⟨hc, he⟩ | ⟨hc, he⟩ | ⟨hc, he⟩ | ⟨hc, he⟩ | ⟨hc, he⟩ | ⟨hc, he⟩ |
    ⟨hc, he⟩ | ⟨hc, he⟩ | ⟨hc, he⟩
  · exact absurd (Or.inl hc) u1
  · exact absurd (Or.inr hc) u1
  · exact absurd (Or.inl hc) u2
  · exact absurd (Or.inr hc) u2
  · exact absurd (Or.inl hc) u3
  · exact absurd (Or.inr (Or.inl hc)) u3
  · exact absurd (Or.inr (Or.inr hc)) u3
  · exact absurd (Or.inl hc) u4
  · exact absurd (Or.inr hc) u4
  · exact absurd hc u5
  · exact absurd hc u6
  · exact absurd hc u7
  · exact absurd hc u8
  · exact absurd hc u9
  · exact he

/-- Boolean falsity transfers to the propositional negation of truth. -/
lemma bfalse_not_true {b : Bool} (h : b = false) : ¬ (b = true) :=
  fun hh => Bool.noConfusion (h.symm.trans hh)

/-- Exhaustive case analysis of one queue step, following the arm order of the
source `match`, with the negations of the earlier prefix tests recorded. -/
lemma queueStep_cases (a : QueueAcc) (l : String) :
    (strStartsWith "file: " l = true ∧ queueStep a l =
      (if a.first then
        .ok { first := false, file := some (strDrop 6 l), artist := none, album := none,
              title := none, time := 0, tracks := a.tracks }
      else
        match a.file with
        | some f =>
          .ok { first := false, file := some (strDrop 6 l), artist := none, album := none,
                title := none, time := 0,
                tracks := a.tracks ++ [⟨f, a.artist, a.album, a.title, a.time⟩] }
        | none => .error (.bail "incomplete playlist response"))) ∨
    (strStartsWith "file: " l = false ∧ strStartsWith "Artist: " l = true ∧
      queueStep a l = .ok { a with artist := some (strDrop 8 l) }) ∨
    (strStartsWith "file: " l = false ∧ strStartsWith "Artist: " l = false ∧
      strStartsWith "Album: " l = true ∧
      queueStep a l = .ok { a with album := some (strDrop 7 l) }) ∨
    (strStartsWith "file: " l = false ∧ strStartsWith "Artist: " l = false ∧
      strStartsWith "Album: " l = false ∧ strStartsWith "Title: " l = true ∧
      queueStep a l = .ok { a with title := some (strDrop 7 l) }) ∨
    (strStartsWith "file: " l = false ∧ strStartsWith "Artist: " l = false ∧
      strStartsWith "Album: " l = false ∧ strStartsWith "Title: " l = false ∧
      strStartsWith "Time: " l = true ∧
      queueStep a l =
        match parseU16 (strDrop 6 l) with
        | some n => .ok { a with time := n }
        | none => .error .parseNum) ∨
    (queueUnmatched l ∧ queueStep a l = .ok a) := by
  by_cases c1 : strStartsWith "file: " l = true
  · exact Or.inl ⟨c1, by unfold queueStep; rw [if_pos c1]⟩
  have c1' : strStartsWith "file: " l = false := by simpa using c1
  by_cases c2 : strStartsWith "Artist: " l = true
  · exact Or.inr (Or.inl ⟨c1', c2, by unfold queueStep; rw [if_neg c1, if_pos c2]⟩)
  have c2' : strStartsWith "Artist: " l = false := by simpa using c2
  by_cases c3 : strStartsWith "Album: " l = true
  · exact Or.inr (Or.inr (Or.inl ⟨c1', c2', c3, by
      unfold queueStep; rw [if_neg c1, if_neg c2, if_pos c3]⟩))
  have c3' : strStartsWith "Album: " l = false := by simpa using c3
  by_cases c4 : strStartsWith "Title: " l = true
  · exact Or.inr (Or.inr (Or.inr (Or.inl ⟨c1', c2', c3', c4, by
      unfold queueStep; rw [if_neg c1, if_neg c2, if_neg c3, if_pos c4]⟩)))
  have c4' : strStartsWith "Title: " l = false := by simpa using c4
  by_cases c5 : strStartsWith "Time: " l = true
  · refine Or.inr (Or.inr (Or.inr (Or.inr (Or.inl ⟨c1', c2', c3', c4', c5, ?_⟩))))
    unfold queueStep
    rw [if_neg c1, if_neg c2, if_neg c3, if_neg c4, if_pos c5]
  have c5' : strStartsWith "Time: " l = false := by simpa using c5
  refine Or.inr (Or.inr (Or.inr (Or.inr (Or.inr ⟨⟨c1', c2', c3', c4', c5'⟩, ?_⟩))))
  unfold queueStep
  rw [if_neg c1, if_neg c2, if_neg c3, if_neg c4, if_neg c5]

/-- On a non-boundary line whose `Time: ` suffix (if any) parses, a queue step
updates exactly the track fields, in the way the spec-level field step does. -/
lemma queueStep_nofile (a : QueueAcc) (l : String)
    (hf : strStartsWith "file: " l = false)
    (hT : strStartsWith "Time: " l = true → (parseU16 (strDrop 6 l)).isSome = true) :
    queueStep a l = .ok (setFields a (specFieldStep (fieldsOf a) l)) := by
  rcases queueStep_cases a l with ⟨hc, he⟩ | ⟨-, hc, he⟩ | ⟨-, h2, hc, he⟩ |
    ⟨-, h2, h3, hc, he⟩ | ⟨-, h2, h3, h4, hc, he⟩ | ⟨hu, he⟩
  · exact Bool.noConfusion (hf.symm.trans hc)
  · rw [he]
    unfold specFieldStep setFields fieldsOf
    rw [if_pos hc]
  · rw [he]
    unfold specFieldStep setFields fieldsOf
    rw [if_neg (bfalse_not_true h2), if_pos hc]
  · rw [he]
    unfold specFieldStep setFields fieldsOf
    rw [if_neg (bfalse_not_true h2), if_neg (bfalse_not_true h3), if_pos hc]
  · obtain ⟨n, hp⟩ := Option.isSome_iff_exists.mp (hT hc)
    rw [he]
    unfold specFieldStep setFields fieldsOf
    rw [if_neg (bfalse_not_true h2), if_neg (bfalse_not_true h3),
      if_neg (bfalse_not_true h4), if_pos hc, hp]
    rfl
  · obtain ⟨-, u2, u3, u4, u5⟩ := hu
    rw [he]
    unfold specFieldStep setFields fieldsOf
    rw [if_neg (bfalse_not_true u2), if_neg (bfalse_not_true u3),
      if_neg (bfalse_not_true u4), if_neg (bfalse_not_true u5)]

/-- A queue step on an ignored line leaves the accumulator unchanged. -/
lemma queueStep_ignored (a : QueueAcc) (l : String) (hig : queueIgnored l) :
    queueStep a l = .ok a := by
  obtain ⟨-, u1, u2, u3, u4, u5⟩ := hig
  rcases queueStep_cases a l with ⟨hc, he⟩ | ⟨-, hc, he⟩ | ⟨-, -, hc, he⟩ |
    ⟨-, -, -, hc, he⟩ | ⟨-, -, -, -, hc, he⟩ | ⟨-, he⟩
  · exact Bool.noConfusion (u1.symm.trans hc)
  · exact Bool.noConfusion (u2.symm.trans hc)
  · exact Bool.noConfusion (u3.symm.trans hc)
  · exact Bool.noConfusion (u4.symm.trans hc)
  · exact Bool.noConfusion (u5.symm.trans hc)
  · exact he

/-- The queue loop preserves the invariant that once past the first `file: `
line the accumulator's file is set, and under it never bails out incomplete. -/
lemma queueLoop_no_incomplete (ls : List String) : ∀ a,
    (a.first = false → a.file.isSome) →
    queueLoop a ls ≠ .error (.bail "incomplete playlist response") := by
  induction ls with
  | nil => intro a _ h; exact Except.noConfusion h
  | cons l ls ih =>
    intro a hinv
    simp only [queueLoop]
    by_cases hOK : l = "OK"
    · simp [hOK]
    · simp only [hOK, if_false]
      unfold queueStep
      by_cases hf : strStartsWith "file: " l = true
      · simp only [hf, if_true]
        by_cases hfst : a.first = true
        · simp only [hfst, if_true]
          exact ih _ (fun _ => rfl)
        · have : a.first = false := by simpa using hfst
          rcases Option.isSome_iff_exists.mp (hinv this) with ⟨f, hfile⟩
          simp only [this, hfile, Bool.false_eq_true, if_false]
          exact ih _ (fun _ => rfl)
      · have hf' : strStartsWith "file: " l = false := by simpa using hf
        simp only [hf', Bool.false_eq_true, if_false]
        by_cases ha : strStartsWith "Artist: " l = true
        · simp only [ha, if_true]; exact ih _ (fun h => hinv h)
        · have ha' : strStartsWith "Artist: " l = false := by simpa using ha
          simp only [ha', Bool.false_eq_true, if_false]
          by_cases hb : strStartsWith "Album: " l = true
          · simp only [hb, if_true]; exact ih _ (fun h => hinv h)
          · have hb' : strStartsWith "Album: " l = false := by simpa using hb
            simp only [hb', Bool.false_eq_true, if_false]
            by_cases hc : strStartsWith "Title: " l = true
            · simp only [hc, if_true]; exact ih _ (fun h => hinv h)
            · have hc' : strStartsWith "Title: " l = false := by simpa using hc
              simp only [hc', Bool.false_eq_true, if_false]
              by_cases hd : strStartsWith "Time: " l = true
              · simp only [hd, if_true]
                cases parseU16 (strDrop 6 l) with
                | some n => exact ih _ (fun h => hinv h)
                | none => simp
              · have hd' : strStartsWith "Time: " l = false := by simpa using hd
                simp only [hd', Bool.false_eq_true, if_false]
                exact ih _ (fun h => hinv h)

/-- Processed-lines prefix of a non-sentinel cons cell. -/
lemma takeWhile_ne_OK_cons {l : String} (ls : List String) (h : ¬ l = "OK") :
    (l :: ls).takeWhile (fun x => x != "OK") = l :: ls.takeWhile (fun x => x != "OK") := by
  rw [List.takeWhile_cons]
  simp [h]

/-- Processed-lines prefix of a sentinel-headed list is empty. -/
lemma takeWhile_OK_cons (ls : List String) :
    ("OK" :: ls).takeWhile (fun x => x != "OK") = [] := by
  rw [List.takeWhile_cons]
  simp

/-- Unfolding equation of the status loop on a cons cell. -/
lemma statusLoop_cons (a : StatusAcc) (l : String) (ls : List String) :
    statusLoop a (l :: ls) =
      if l = "OK" then .ok a
      else
        match statusStep a l with
        | .ok a' => statusLoop a' ls
        | .error e => .error e := rfl

/-- Unfolding equation of the queue loop on a cons cell. -/
lemma queueLoop_cons (a : QueueAcc) (l : String) (ls : List String) :
    queueLoop a (l :: ls) =
      if l = "OK" then .ok a
      else
        match queueStep a l with
        | .ok a' => queueLoop a' ls
        | .error e => .error e := rfl

/-- Unfolding equation of the idle loop on a cons cell. -/
lemma idleLoop_cons (st q : Bool) (l : String) (ls : List String) :
    idleLoop st q (l :: ls) =
      if l = "changed: options" then idleLoop true q ls
      else if l = "changed: player" then idleLoop true q ls
      else if l = "changed: playlist" then idleLoop st true ls
      else if l = "OK" then (st, q)
      else idleLoop st q ls := rfl

/-- The status loop only reads the lines before the first `OK`. -/
lemma statusLoop_takeWhile (ls : List String) : ∀ a,
    statusLoop a ls = statusLoop a (ls.takeWhile (fun l => l != "OK")) := by
  induction ls with
  | nil => intro a; rfl
  | cons l ls ih =>
    intro a
    by_cases h : l = "OK"
    · subst h
      rw [List.takeWhile_cons_of_neg (by simp)]
      rfl
    · rw [List.takeWhile_cons_of_pos (by simp [h])]
      unfold statusLoop
      simp only [if_neg h]
      cases hs : statusStep a l with
      | ok a' => simp only [hs]; exact ih a'
      | error e => simp only [hs]

/-- The queue loop only reads the lines before the first `OK`. -/
lemma queueLoop_takeWhile (ls : List String) : ∀ a,
    queueLoop a ls = queueLoop a (ls.takeWhile (fun l => l != "OK")) := by
  induction ls with
  | nil => intro a; rfl
  | cons l ls ih =>
    intro a
    by_cases h : l = "OK"
    · subst h
      rw [List.takeWhile_cons_of_neg (by simp)]
      rfl
    · rw [List.takeWhile_cons_of_pos (by simp [h])]
      unfold queueLoop
      simp only [if_neg h]
      cases hs : queueStep a l with
      | ok a' => simp only [hs]; exact ih a'
      | error e => simp only [hs]

/-- The status loop over an appended list, when the first part is free of the
sentinel, is the loop over the first part followed by the loop over the rest. -/
lemma statusLoop_append (pre tl : List String) (hOK : ∀ l ∈ pre, l ≠ "OK") : ∀ a,
    statusLoop a (pre ++ tl) = (statusLoop a pre).bind fun a' => statusLoop a' tl := by
  induction pre with
  | nil => intro a; rfl
  | cons l pre ih =>
    intro a
    have hl : l ≠ "OK" := hOK l (List.mem_cons_self l pre)
    rw [List.cons_append]
    simp only [statusLoop_cons]
    simp only [if_neg hl]
    cases hs : statusStep a l with
    | ok a' =>
      simp only [hs]
      exact ih (fun x hx => hOK x (List.mem_cons_of_mem l hx)) a'
    | error e => simp only [hs]; rfl

/-- The queue loop over an appended list, when the first part is free of the
sentinel, is the loop over the first part followed by the loop over the rest. -/
lemma queueLoop_append (pre tl : List String) (hOK : ∀ l ∈ pre, l ≠ "OK") : ∀ a,
    queueLoop a (pre ++ tl) = (queueLoop a pre).bind fun a' => queueLoop a' tl := by
  induction pre with
  | nil => intro a; rfl
  | cons l pre ih =>
    intro a
    have hl : l ≠ "OK" := hOK l (List.mem_cons_self l pre)
    rw [List.cons_append]
    simp only [queueLoop_cons]
    simp only [if_neg hl]
    cases hs : queueStep a l with
    | ok a' =>
      simp only [hs]
      exact ih (fun x hx => hOK x (List.mem_cons_of_mem l hx)) a'
    | error e => simp only [hs]; rfl

/-- Generic tracking of one boolean observation through the status loop: if a
step makes `g` true exactly when it was true before or the line satisfies `p`,
then after a successful loop `g` holds iff it held initially or some processed
line (before the first `OK`) satisfies `p`. -/
lemma statusLoop_field (g : StatusAcc → Bool) (p : String → Prop)
    (hstep : ∀ a l a', statusStep a l = .ok a' → (g a' = true ↔ g a = true ∨ p l)) :
    ∀ (ls : List String) (a acc : StatusAcc), statusLoop a ls = .ok acc →
      (g acc = true ↔ g a = true ∨ ∃ l ∈ ls.takeWhile (fun x => x != "OK"), p l) := by
  intro ls
  induction ls with
  | nil =>
    intro a acc h
    injection h with h
    subst h
    simp
  | cons l ls ih =>
    intro a acc h
    unfold statusLoop at h
    by_cases hOK : l = "OK"
    · rw [if_pos hOK] at h
      injection h with h
      subst h
      rw [List.takeWhile_cons_of_neg (by simp [hOK])]
      simp
    · rw [if_neg hOK] at h
      cases hs : statusStep a l with
      | error e => rw [hs] at h; exact Except.noConfusion h
      | ok a' =>
        simp only [hs] at h
        have hiff := ih a' acc h
        have hstep' := hstep a l a' hs
        rw [List.takeWhile_cons_of_pos (by simp [hOK])]
        simp only [List.mem_cons, exists_eq_or_imp] at *
        rw [hiff, hstep']
        tauto

/-- Inserting status-ignored lines anywhere leaves the status loop unchanged. -/
lemma statusLoop_insert {ls ls' : List String} (hins : InsertIgn statusIgnored ls ls') :
    ∀ a, statusLoop a ls' = statusLoop a ls := by
  induction hins with
  | nil => intro a; rfl
  | keep hi ih =>
    intro a
    rename_i l ls₁ ls₂
    simp only [statusLoop_cons]
    by_cases hOK : l = "OK"
    · rw [if_pos hOK, if_pos hOK]
    · rw [if_neg hOK, if_neg hOK]
      cases hs : statusStep a l with
      | ok a' => simp only [hs]; exact ih a'
      | error e => simp only [hs]
  | ins hig hi ih =>
    intro a
    rename_i l ls₁ ls₂
    rw [statusLoop_cons, if_neg hig.1]
    simp only [statusStep_ignored a l hig]
    exact ih a

/-- Inserting queue-ignored lines anywhere leaves the queue loop unchanged. -/
lemma queueLoop_insert {ls ls' : List String} (hins : InsertIgn queueIgnored ls ls') :
    ∀ a, queueLoop a ls' = queueLoop a ls := by
  induction hins with
  | nil => intro a; rfl
  | keep hi ih =>
    intro a
    rename_i l ls₁ ls₂
    simp only [queueLoop_cons]
    by_cases hOK : l = "OK"
    · rw [if_pos hOK, if_pos hOK]
    · rw [if_neg hOK, if_neg hOK]
      cases hs : queueStep a l with
      | ok a' => simp only [hs]; exact ih a'
      | error e => simp only [hs]
  | ins hig hi ih =>
    intro a
    rename_i l ls₁ ls₂
    rw [queueLoop_cons, if_neg hig.1]
    simp only [queueStep_ignored a l hig]
    exact ih a

/-- Inserting idle-ignored lines anywhere leaves the idle loop unchanged. -/
lemma idleLoop_insert {ls ls' : List String} (hins : InsertIgn idleIgnored ls ls') :
    ∀ st q, idleLoop st q ls' = idleLoop st q ls := by
  induction hins with
  | nil => intro st q; rfl
  | keep hi ih =>
    intro st q
    rename_i l ls₁ ls₂
    simp only [idleLoop_cons]
    by_cases h1 : l = "changed: options"
    · rw [if_pos h1, if_pos h1]; exact ih true q
    rw [if_neg h1, if_neg h1]
    by_cases h2 : l = "changed: player"
    · rw [if_pos h2, if_pos h2]; exact ih true q
    rw [if_neg h2, if_neg h2]
    by_cases h3 : l = "changed: playlist"
    · rw [if_pos h3, if_pos h3]; exact ih st true
    rw [if_neg h3, if_neg h3]
    by_cases h4 : l = "OK"
    · rw [if_pos h4, if_pos h4]
    rw [if_neg h4, if_neg h4]
    exact ih st q
  | ins hig hi ih =>
    intro st q
    rename_i l ls₁ ls₂
    obtain ⟨i1, i2, i3, i4⟩ := hig
    rw [idleLoop_cons, if_neg i2, if_neg i3, if_neg i4, if_neg i1]
    exact ih st q

/-- Through a successful status loop whose processed lines carry no `state:`
literal, the player state is unchanged. -/
lemma statusLoop_state (ls : List String) : ∀ a acc, statusLoop a ls = .ok acc →
    (∀ l ∈ ls.takeWhile (fun x => x != "OK"), l ≠ "state: play" ∧ l ≠ "state: pause") →
    acc.state = a.state := by
  induction ls with
  | nil =>
    intro a acc h _
    injection h with h
    subst h
    rfl
  | cons l ls ih =>
    intro a acc h hst
    rw [statusLoop_cons] at h
    by_cases hOK : l = "OK"
    · rw [if_pos hOK] at h
      injection h with h
      subst h
      rfl
    · rw [if_neg hOK] at h
      have hpos : (l != "OK") = true := by simp [hOK]
      have hl := hst l (by rw [takeWhile_ne_OK_cons ls hOK]; exact List.mem_cons_self l _)
      cases hs : statusStep a l with
      | error e => rw [hs] at h; exact Except.noConfusion h
      | ok a' =>
        simp only [hs] at h
        have hframe :=
          (statusStep_fields a l a' hs).2.2.2.2.2.2.2.2.2.2.2.2.2.2 hl.1 hl.2
        have htail : ∀ x ∈ ls.takeWhile (fun x => x != "OK"),
            x ≠ "state: play" ∧ x ≠ "state: pause" := by
          intro x hx
          exact hst x (by rw [takeWhile_ne_OK_cons ls hOK]; exact List.mem_cons_of_mem l hx)
        rw [ih a' acc h htail, hframe]

/-- The status finalizer succeeds exactly when the five required fields are set. -/
lemma statusFinish_ok_iff (a : StatusAcc) :
    (∃ s, statusFinish a = .ok s) ↔
      a.«repeat».isSome = true ∧ a.random.isSome = true ∧ a.single.isSome = true ∧
        a.consume.isSome = true ∧ a.queue_len.isSome = true := by
  obtain ⟨r, rd, sg, c, q, st, p, e⟩ := a
  unfold statusFinish
  cases r <;> cases rd <;> cases sg <;> cases c <;> cases q <;> simp

/-- When a required field is missing, the status finalizer bails out with the
incomplete-status message. -/
lemma statusFinish_incomplete (a : StatusAcc)
    (h : ¬(a.«repeat».isSome = true ∧ a.random.isSome = true ∧ a.single.isSome = true ∧
      a.consume.isSome = true ∧ a.queue_len.isSome = true)) :
    statusFinish a = .error (.bail "incomplete status response") := by
  obtain ⟨r, rd, sg, c, q, st, p, e⟩ := a
  unfold statusFinish
  cases r <;> cases rd <;> cases sg <;> cases c <;> cases q <;> simp_all

/-- A finalized status carries the accumulator's player state. -/
lemma statusFinish_state (a : StatusAcc) (s : Status) (h : statusFinish a = .ok s) :
    s.state = a.state := by
  obtain ⟨r, rd, sg, c, q, st, p, e⟩ := a
  unfold statusFinish at h
  cases r <;> cases rd <;> cases sg <;> cases c <;> cases q <;>
    first
    | exact Except.noConfusion h
    | (injection h with h; subst h; rfl)

/-- A finalized status carries a song exactly when both the position and the
elapsed time were set. -/
lemma statusFinish_song (a : StatusAcc) (s : Status) (h : statusFinish a = .ok s) :
    s.song.isSome = true ↔ a.pos.isSome = true ∧ a.elapsed.isSome = true := by
  obtain ⟨r, rd, sg, c, q, st, p, e⟩ := a
  unfold statusFinish at h
  cases r <;> cases rd <;> cases sg <;> cases c <;> cases q <;>
    try exact Except.noConfusion h
  injection h with h
  subst h
  cases p <;> cases e <;> simp

/-- Mid-group invariant of the queue loop: past a `file: ` boundary for file
`f`, over sentinel-free lines with parseable `Time: ` suffixes, the loop
flushes one track built from `f` and the folded fields, followed by the
spec-level groups of the remaining boundaries. -/
lemma queueLoop_mid (ls : List String) (hOK : ∀ l ∈ ls, l ≠ "OK")
    (hT : ∀ l ∈ ls, strStartsWith "Time: " l = true →
      (parseU16 (strDrop 6 l)).isSome = true) :
    ∀ (T : List Track) (f : String) (ar al ti : Option String) (tm : Nat),
      (queueLoop ⟨false, some f, ar, al, ti, tm, T⟩ ls).map queueFinish =
        .ok (T ++ mkTrack f ((ls.takeWhile notFile).foldl specFieldStep ⟨ar, al, ti, tm⟩)
          :: specQueueRun (ls.dropWhile notFile)) := by
  induction ls with
  | nil =>
    intro T f ar al ti tm
    simp [queueLoop, Except.map, queueFinish, mkTrack, specQueueRun]
  | cons l ls ih =>
    intro T f ar al ti tm
    have hl : l ≠ "OK" := hOK l (List.mem_cons_self l ls)
    have hOK' : ∀ x ∈ ls, x ≠ "OK" := fun x hx => hOK x (List.mem_cons_of_mem l hx)
    have hT' : ∀ x ∈ ls, strStartsWith "Time: " x = true →
        (parseU16 (strDrop 6 x)).isSome = true :=
      fun x hx => hT x (List.mem_cons_of_mem l hx)
    rw [queueLoop_cons, if_neg hl]
    by_cases hf : strStartsWith "file: " l = true
    · have hnq : notFile l = false := by simp [notFile, hf]
      have hstep : queueStep ⟨false, some f, ar, al, ti, tm, T⟩ l =
          .ok ⟨false, some (strDrop 6 l), none, none, none, 0,
            T ++ [⟨f, ar, al, ti, tm⟩]⟩ := by
        unfold queueStep
        rw [if_pos hf]
        rfl
      simp only [hstep]
      refine (ih hOK' hT' (T ++ [⟨f, ar, al, ti, tm⟩]) (strDrop 6 l) none none none 0).trans ?_
      have hneg : ¬ (notFile l = true) := by simp [hnq]
      rw [List.takeWhile_cons_of_neg hneg, List.dropWhile_cons_of_neg hneg]
      have hrun : specQueueRun (l :: ls) =
          mkTrack (strDrop 6 l) ((ls.takeWhile notFile).foldl specFieldStep qfInit)
            :: specQueueRun (ls.dropWhile notFile) := by
        simp only [specQueueRun]
        rw [if_pos hf]
      rw [hrun]
      simp [mkTrack, qfInit, List.append_assoc]
    · have hf' : strStartsWith "file: " l = false := by simpa using hf
      have hnq : notFile l = true := by simp [notFile, hf']
      have hstep := queueStep_nofile ⟨false, some f, ar, al, ti, tm, T⟩ l hf'
        (hT l (List.mem_cons_self l ls))
      simp only [hstep, setFields, fieldsOf]
      rw [List.takeWhile_cons_of_pos hnq, List.dropWhile_cons_of_pos hnq,
        List.foldl_cons]
      exact ih hOK' hT' T f (specFieldStep ⟨ar, al, ti, tm⟩ l).artist
        (specFieldStep ⟨ar, al, ti, tm⟩ l).album (specFieldStep ⟨ar, al, ti, tm⟩ l).title
        (specFieldStep ⟨ar, al, ti, tm⟩ l).time

/-- Pre-boundary invariant of the queue loop: before the first `file: ` line,
over sentinel-free lines with parseable `Time: ` suffixes, the loop yields
exactly the spec-level groups. -/
lemma queueLoop_pre (ls : List String) (hOK : ∀ l ∈ ls, l ≠ "OK")
    (hT : ∀ l ∈ ls, strStartsWith "Time: " l = true →
      (parseU16 (strDrop 6 l)).isSome = true) :
    ∀ (ar al ti : Option String) (tm : Nat),
      (queueLoop ⟨true, none, ar, al, ti, tm, []⟩ ls).map queueFinish =
        .ok (specQueueRun ls) := by
  induction ls with
  | nil =>
    intro ar al ti tm
    simp [queueLoop, Except.map, queueFinish, specQueueRun]
  | cons l ls ih =>
    intro ar al ti tm
    have hl : l ≠ "OK" := hOK l (List.mem_cons_self l ls)
    have hOK' : ∀ x ∈ ls, x ≠ "OK" := fun x hx => hOK x (List.mem_cons_of_mem l hx)
    have hT' : ∀ x ∈ ls, strStartsWith "Time: " x = true →
        (parseU16 (strDrop 6 x)).isSome = true :=
      fun x hx => hT x (List.mem_cons_of_mem l hx)
    rw [queueLoop_cons, if_neg hl]
    by_cases hf : strStartsWith "file: " l = true
    · have hstep : queueStep ⟨true, none, ar, al, ti, tm, []⟩ l =
          .ok ⟨false, some (strDrop 6 l), none, none, none, 0, []⟩ := by
        unfold queueStep
        rw [if_pos hf]
        rfl
      simp only [hstep]
      refine (queueLoop_mid ls hOK' hT' [] (strDrop 6 l) none none none 0).trans ?_
      have hrun : specQueueRun (l :: ls) =
          mkTrack (strDrop 6 l) ((ls.takeWhile notFile).foldl specFieldStep qfInit)
            :: specQueueRun (ls.dropWhile notFile) := by
        simp only [specQueueRun]
        rw [if_pos hf]
      rw [hrun]
      simp [qfInit]
    · have hf' : strStartsWith "file: " l = false := by simpa using hf
      have hstep := queueStep_nofile ⟨true, none, ar, al, ti, tm, []⟩ l hf'
        (hT l (List.mem_cons_self l ls))
      simp only [hstep, setFields, fieldsOf]
      have hrun : specQueueRun (l :: ls) = specQueueRun ls := by
        simp only [specQueueRun]
        rw [if_neg (bfalse_not_true hf')]
      rw [hrun]
      exact ih hOK' hT' (specFieldStep ⟨ar, al, ti, tm⟩ l).artist
        (specFieldStep ⟨ar, al, ti, tm⟩ l).album (specFieldStep ⟨ar, al, ti, tm⟩ l).title
        (specFieldStep ⟨ar, al, ti, tm⟩ l).time

/-- Refinement of the queue decoder by the spec-level grouping formulation:
whenever every `Time: ` suffix before the sentinel parses, the decoder
returns exactly the spec-level groups, in order. -/
lemma queueDecode_spec (ls : List String)
    (hT : ∀ l ∈ ls.takeWhile (fun x => x != "OK"), strStartsWith "Time: " l = true →
      (parseU16 (strDrop 6 l)).isSome = true) :
    queueDecode ls = .ok (specQueueDecode ls) := by
  unfold queueDecode specQueueDecode
  rw [queueLoop_takeWhile]
  have hOK : ∀ l ∈ ls.takeWhile (fun x => x != "OK"), l ≠ "OK" := by
    intro l hl
    have := List.mem_takeWhile_imp hl
    simpa using this
  exact queueLoop_pre (ls.takeWhile (fun x => x != "OK")) hOK hT none none none 0

/-- A status step on a line whose numeric suffix fails to parse propagates the
parse error. -/
lemma statusStep_badNum (a : StatusAcc) (l : String) (hbad : badStatusNum l) :
    statusStep a l = .error .parseNum := by
  rcases statusStep_cases a l with ⟨hc, he⟩ | ⟨hc, he⟩ | ⟨hc, he⟩ | ⟨hc, he⟩ | ⟨hc, he⟩ |
    ⟨hc, he⟩ | ⟨hc, he⟩ | ⟨hc, he⟩ | ⟨hc, he⟩ | ⟨hc, he⟩ | ⟨hc, he⟩ | ⟨hc, he⟩ |
    ⟨hc, he⟩ | ⟨hc, he⟩ | ⟨hc, he⟩
  case inl | inr.inl | inr.inr.inl | inr.inr.inr.inl | inr.inr.inr.inr.inl |
    inr.inr.inr.inr.inr.inl | inr.inr.inr.inr.inr.inr.inl |
    inr.inr.inr.inr.inr.inr.inr.inl | inr.inr.inr.inr.inr.inr.inr.inr.inl |
    inr.inr.inr.inr.inr.inr.inr.inr.inr.inr.inl |
    inr.inr.inr.inr.inr.inr.inr.inr.inr.inr.inr.inl =>
    subst hc
    exact absurd hbad (by decide)
  case inr.inr.inr.inr.inr.inr.inr.inr.inr.inl =>
    rcases hbad with ⟨-, hp⟩ | ⟨hb, -⟩ | ⟨hb, -⟩
    · rw [he, hp]
    · exact Bool.noConfusion ((plen_not_song l hc).symm.trans hb)
    · exact Bool.noConfusion ((plen_not_elapsed l hc).symm.trans hb)
  case inr.inr.inr.inr.inr.inr.inr.inr.inr.inr.inr.inr.inl =>
    rcases hbad with ⟨hb, -⟩ | ⟨-, hp⟩ | ⟨hb, -⟩
    · exact Bool.noConfusion ((plen_not_song l hb).symm.trans hc)
    · rw [he, hp]
    · exact Bool.noConfusion ((song_not_elapsed l hc).symm.trans hb)
  case inr.inr.inr.inr.inr.inr.inr.inr.inr.inr.inr.inr.inr.inl =>
    rcases hbad with ⟨hb, -⟩ | ⟨hb, -⟩ | ⟨-, hp⟩
    · exact Bool.noConfusion ((plen_not_elapsed l hb).symm.trans hc)
    · exact Bool.noConfusion ((song_not_elapsed l hb).symm.trans hc)
    · rw [he, hp]
  case inr.inr.inr.inr.inr.inr.inr.inr.inr.inr.inr.inr.inr.inr =>
    obtain ⟨-, -, -, -, u5, -, -, u8, u9⟩ := hc
    rcases hbad with ⟨hb, -⟩ | ⟨hb, -⟩ | ⟨hb, -⟩
    · exact absurd hb u5
    · exact absurd hb u8
    · exact absurd hb u9

/-- A queue step on a `Time: ` line whose suffix fails to parse propagates the
parse error. -/
lemma queueStep_badNum (a : QueueAcc) (l : String) (hbad : badQueueNum l) :
    queueStep a l = .error .parseNum := by
  obtain ⟨hb, hp⟩ := hbad
  have ht := time_not_others l hb
  rcases queueStep_cases a l with ⟨hc, he⟩ | ⟨-, hc, he⟩ | ⟨-, -, hc, he⟩ |
    ⟨-, -, -, hc, he⟩ | ⟨-, -, -, -, hc, he⟩ | ⟨hu, he⟩
  · exact Bool.noConfusion (ht.1.symm.trans hc)
  · exact Bool.noConfusion (ht.2.1.symm.trans hc)
  · exact Bool.noConfusion (ht.2.2.1.symm.trans hc)
  · exact Bool.noConfusion (ht.2.2.2.symm.trans hc)
  · rw [he, hp]
  · exact Bool.noConfusion (hu.2.2.2.2.symm.trans hb)

/-- A line with a malformed status numeric field is not the sentinel. -/
lemma badStatusNum_ne_OK {l : String} (h : badStatusNum l) : l ≠ "OK" := by
  rcases h with ⟨hb, -⟩ | ⟨hb, -⟩ | ⟨hb, -⟩ <;>
    (intro he; subst he; exact absurd hb (by decide))

/-- A line with a malformed queue numeric field is not the sentinel. -/
lemma badQueueNum_ne_OK {l : String} (h : badQueueNum l) : l ≠ "OK" := by
  obtain ⟨hb, -⟩ := h
  intro he
  subst he
  exact absurd hb (by decide)

/-- Unfolding equation of the play/command loop on a cons cell. -/
lemma commandLoop_cons (l : String) (ls : List String) :
    commandLoop (l :: ls) =
      if l = "OK" then ls
      else if strStartsWith "ACK " l then ls
      else commandLoop ls := rfl

/-- The play/command read loop stops right after a sentinel line, leaving the
rest of the stream unread. -/
lemma commandLoop_sentinel (l : String) (ls : List String) (hs : isSentinel l) :
    commandLoop (l :: ls) = ls := by
  rw [commandLoop_cons]
  rcases hs with h | h
  · rw [if_pos h]
  · by_cases hOK : l = "OK"
    · rw [if_pos hOK]
    · rw [if_neg hOK, if_pos h]

/-- The play/command read loop skips any prefix free of sentinel lines. -/
lemma commandLoop_skip (pre : List String) (hpre : ∀ x ∈ pre, ¬ isSentinel x) :
    ∀ tl, commandLoop (pre ++ tl) = commandLoop tl := by
  induction pre with
  | nil => intro tl; rfl
  | cons l pre ih =>
    intro tl
    have hl := hpre l (List.mem_cons_self l pre)
    have h1 : ¬ l = "OK" := fun h => hl (Or.inl h)
    have h2 : ¬ strStartsWith "ACK " l = true := fun h => hl (Or.inr h)
    rw [List.cons_append, commandLoop_cons, if_neg h1, if_neg h2]
    exact ih (fun x hx => hpre x (List.mem_cons_of_mem l hx)) tl

/-- Combination of a frame fact and a set fact into one observation step. -/
lemma bool_obs_iff {b b' : Bool} {p : Prop} (h1 : ¬p → b' = b) (h2 : p → b' = true) :
    (b' = true ↔ b = true ∨ p) := by
  by_cases hp : p
  · simp [h2 hp, hp]
  · rw [h1 hp]
    simp [hp]

/-- Dropping up to the first newline skips exactly a newline-free prefix. -/
lemma dropWhile_ne_newline (version rest : List Char) (h : '\n' ∉ version) :
    (version ++ '\n' :: rest).dropWhile (· ≠ '\n') = '\n' :: rest := by
  induction version with
  | nil => simp
  | cons c cs ih =>
    have hc : c ≠ '\n' := fun h' => h (h' ▸ List.mem_cons_self c cs)
    rw [List.cons_append, List.dropWhile_cons_of_pos (by simp [hc])]
    exact ih (fun hm => h (List.mem_cons_of_mem c hm))

/-! Claim theorems. -/

/-- C1: the documented status response decodes to the expected record — in
particular `single: oneshot` yields `single = none`, `elapsed: 12.6` rounds to
13 — and whenever neither `state: play` nor `state: pause` occurs among the
processed lines, a decoded status carries the default player state `Stop`. -/
theorem statusRoundTrip :
    statusDecode ["repeat: 1", "random: 0", "single: oneshot", "consume: 0",
        "playlistlength: 3", "state: play", "song: 1", "elapsed: 12.6", "OK"] =
      .ok { «repeat» := true, random := false, single := none, consume := false,
            queue_len := 3, state := .Play, song := some ⟨1, 13⟩ } ∧
    ∀ (ls : List String) (s : Status),
      (∀ l ∈ ls.takeWhile (fun x => x != "OK"), l ≠ "state: play" ∧ l ≠ "state: pause") →
      statusDecode ls = .ok s → s.state = .Stop := by
  constructor
  · decide
  · intro ls s hst h
    unfold statusDecode at h
    cases hloop : statusLoop statusInit ls with
    | error e => rw [hloop] at h; exact Except.noConfusion h
    | ok acc =>
      rw [hloop] at h
      have h' : statusFinish acc = .ok s := h
      rw [statusFinish_state acc s h', statusLoop_state ls statusInit acc hloop hst]
      rfl

/-- Witness for C1 at a concrete response without `state:` lines. -/
theorem statusRoundTripWitness :
    ({ «repeat» := true, random := true, single := some false, consume := true,
       queue_len := 0, state := .Stop, song := none } : Status).state = .Stop :=
  statusRoundTrip.2
    ["repeat: 1", "random: 1", "single: 0", "consume: 1", "playlistlength: 0", "OK"]
    { «repeat» := true, random := true, single := some false, consume := true,
      queue_len := 0, state := .Stop, song := none }
    (by decide) (by decide)

/-- C2 counterexample: a response observing all five required setters can still
yield no status — a malformed `elapsed:` suffix aborts with the numeric parse
error, not with the incomplete-status failure. -/
theorem statusCompletenessCounterexample :
    statusDecode ["repeat: 1", "random: 0", "single: 1", "consume: 0",
        "playlistlength: 2", "elapsed: abc", "OK"] = .error .parseNum ∧
    (∃ l ∈ (["repeat: 1", "random: 0", "single: 1", "consume: 0",
        "playlistlength: 2", "elapsed: abc", "OK"] : List String), setsRepeat l) ∧
    (∃ l ∈ (["repeat: 1", "random: 0", "single: 1", "consume: 0",
        "playlistlength: 2", "elapsed: abc", "OK"] : List String), setsRandom l) ∧
    (∃ l ∈ (["repeat: 1", "random: 0", "single: 1", "consume: 0",
        "playlistlength: 2", "elapsed: abc", "OK"] : List String), setsSingle l) ∧
    (∃ l ∈ (["repeat: 1", "random: 0", "single: 1", "consume: 0",
        "playlistlength: 2", "elapsed: abc", "OK"] : List String), setsConsume l) ∧
    (∃ l ∈ (["repeat: 1", "random: 0", "single: 1", "consume: 0",
        "playlistlength: 2", "elapsed: abc", "OK"] : List String), setsQueueLen l) ∧
    DecodeErr.parseNum ≠ .bail "incomplete status response" := by decide

/-- C2 (amended): when the fold over the response completes without a numeric
parse error, a status is returned iff setter lines for all five required
fields occur before the sentinel; otherwise the query fails with exactly
`incomplete status response`; and the returned song is present iff both a
`song: ` and an `elapsed: ` line were processed. -/
theorem statusCompleteness (ls : List String) (acc : StatusAcc)
    (hloop : statusLoop statusInit ls = .ok acc) :
    ((∃ s, statusDecode ls = .ok s) ↔
      (∃ l ∈ ls.takeWhile (fun x => x != "OK"), setsRepeat l) ∧
      (∃ l ∈ ls.takeWhile (fun x => x != "OK"), setsRandom l) ∧
      (∃ l ∈ ls.takeWhile (fun x => x != "OK"), setsSingle l) ∧
      (∃ l ∈ ls.takeWhile (fun x => x != "OK"), setsConsume l) ∧
      (∃ l ∈ ls.takeWhile (fun x => x != "OK"), setsQueueLen l)) ∧
    (¬((∃ l ∈ ls.takeWhile (fun x => x != "OK"), setsRepeat l) ∧
      (∃ l ∈ ls.takeWhile (fun x => x != "OK"), setsRandom l) ∧
      (∃ l ∈ ls.takeWhile (fun x => x != "OK"), setsSingle l) ∧
      (∃ l ∈ ls.takeWhile (fun x => x != "OK"), setsConsume l) ∧
      (∃ l ∈ ls.takeWhile (fun x => x != "OK"), setsQueueLen l)) →
      statusDecode ls = .error (.bail "incomplete status response")) ∧
    (∀ s, statusDecode ls = .ok s →
      (s.song.isSome = true ↔
        (∃ l ∈ ls.takeWhile (fun x => x != "OK"), setsSong l) ∧
        (∃ l ∈ ls.takeWhile (fun x => x != "OK"), setsElapsed l))) := by
  have hde : statusDecode ls = statusFinish acc := by
    unfold statusDecode
    rw [hloop]
    rfl
  have hrep : acc.«repeat».isSome = true ↔
      ∃ l ∈ ls.takeWhile (fun x => x != "OK"), setsRepeat l := by
    simpa [statusInit] using
      statusLoop_field (fun x => x.«repeat».isSome) setsRepeat
        (fun a l a' hs => bool_obs_iff
          (fun hp => congrArg Option.isSome ((statusStep_fields a l a' hs).1 hp))
          ((statusStep_fields a l a' hs).2.1)) ls statusInit acc hloop
  have hrand : acc.random.isSome = true ↔
      ∃ l ∈ ls.takeWhile (fun x => x != "OK"), setsRandom l := by
    simpa [statusInit] using
      statusLoop_field (fun x => x.random.isSome) setsRandom
        (fun a l a' hs => bool_obs_iff
          (fun hp => congrArg Option.isSome ((statusStep_fields a l a' hs).2.2.1 hp))
          ((statusStep_fields a l a' hs).2.2.2.1)) ls statusInit acc hloop
  have hsing : acc.single.isSome = true ↔
      ∃ l ∈ ls.takeWhile (fun x => x != "OK"), setsSingle l := by
    simpa [statusInit] using
      statusLoop_field (fun x => x.single.isSome) setsSingle
        (fun a l a' hs => bool_obs_iff
          (fun hp => congrArg Option.isSome ((statusStep_fields a l a' hs).2.2.2.2.1 hp))
          ((statusStep_fields a l a' hs).2.2.2.2.2.1)) ls statusInit acc hloop
  have hcons : acc.consume.isSome = true ↔
      ∃ l ∈ ls.takeWhile (fun x => x != "OK"), setsConsume l := by
    simpa [statusInit] using
      statusLoop_field (fun x => x.consume.isSome) setsConsume
        (fun a l a' hs => bool_obs_iff
          (fun hp => congrArg Option.isSome ((statusStep_fields a l a' hs).2.2.2.2.2.2.1 hp))
          ((statusStep_fields a l a' hs).2.2.2.2.2.2.2.1)) ls statusInit acc hloop
  have hql : acc.queue_len.isSome = true ↔
      ∃ l ∈ ls.takeWhile (fun x => x != "OK"), setsQueueLen l := by
    simpa [statusInit] using
      statusLoop_field (fun x => x.queue_len.isSome) setsQueueLen
        (fun a l a' hs => bool_obs_iff
          (fun hp => congrArg Option.isSome
            ((statusStep_fields a l a' hs).2.2.2.2.2.2.2.2.1 hp))
          ((statusStep_fields a l a' hs).2.2.2.2.2.2.2.2.2.1)) ls statusInit acc hloop
  have hpos : acc.pos.isSome = true ↔
      ∃ l ∈ ls.takeWhile (fun x => x != "OK"), setsSong l := by
    simpa [statusInit] using
      statusLoop_field (fun x => x.pos.isSome) setsSong
        (fun a l a' hs => bool_obs_iff
          (fun hp => congrArg Option.isSome
            ((statusStep_fields a l a' hs).2.2.2.2.2.2.2.2.2.2.1 hp))
          ((statusStep_fields a l a' hs).2.2.2.2.2.2.2.2.2.2.2.1)) ls statusInit acc hloop
  have hel : acc.elapsed.isSome = true ↔
      ∃ l ∈ ls.takeWhile (fun x => x != "OK"), setsElapsed l := by
    simpa [statusInit] using
      statusLoop_field (fun x => x.elapsed.isSome) setsElapsed
        (fun a l a' hs => bool_obs_iff
          (fun hp => congrArg Option.isSome
            ((statusStep_fields a l a' hs).2.2.2.2.2.2.2.2.2.2.2.2.1 hp))
          ((statusStep_fields a l a' hs).2.2.2.2.2.2.2.2.2.2.2.2.2.1)) ls statusInit acc hloop
  refine ⟨?_, ?_, ?_⟩
  · rw [hde, statusFinish_ok_iff acc, hrep, hrand, hsing, hcons, hql]
  · intro hmiss
    rw [hde]
    apply statusFinish_incomplete
    intro hcontra
    exact hmiss ⟨hrep.mp hcontra.1, hrand.mp hcontra.2.1, hsing.mp hcontra.2.2.1,
      hcons.mp hcontra.2.2.2.1, hql.mp hcontra.2.2.2.2⟩
  · intro s hs
    rw [hde] at hs
    rw [statusFinish_song acc s hs, hpos, hel]

/-- Witness for C2 (amended) at the bare sentinel response. -/
theorem statusCompletenessWitness :
    statusDecode ["OK"] = .error (.bail "incomplete status response") :=
  (statusCompleteness ["OK"] statusInit (by decide)).2.1 (by decide)

/-- C3: whenever every `Time: ` suffix before the sentinel parses, the queue
decoder returns exactly the tracks obtained by grouping the processed lines at
`file: ` boundaries — one track per boundary, fields taken from the lines of
its group, later lines overriding, time defaulting to 0, groups in server
order — and the documented two-track example decodes accordingly. -/
theorem queueGrouping :
    (∀ ls : List String,
      (∀ l ∈ ls.takeWhile (fun x => x != "OK"), strStartsWith "Time: " l = true →
        (parseU16 (strDrop 6 l)).isSome = true) →
      queueDecode ls = .ok (specQueueDecode ls)) ∧
    queueDecode ["file: a.mp3", "Artist: X", "Time: 120", "file: b.mp3", "Title: Y", "OK"] =
      .ok [{ file := "a.mp3", artist := some "X", album := none, title := none, time := 120 },
           { file := "b.mp3", artist := none, album := none, title := some "Y", time := 0 }] :=
  ⟨fun ls hT => queueDecode_spec ls hT, by decide⟩

/-- Witness for C3 at a concrete parseable response. -/
theorem queueGroupingWitness :
    queueDecode ["file: a.mp3", "Time: 7", "OK"] =
      .ok (specQueueDecode ["file: a.mp3", "Time: 7", "OK"]) :=
  queueGrouping.1 ["file: a.mp3", "Time: 7", "OK"] (by decide)

/-- C4 counterexample: on a rejected greeting the handshake error message is
`server did not greet with a success`, not the claimed
`server did not greet with success`. -/
theorem initHandshakeCounterexample :
    init ("XX MPD 0.23.5\n".data) = .error (.bail "server did not greet with a success") ∧
    "server did not greet with a success" ≠ "server did not greet with success" := by
  decide

/-- C4 (amended): the handshake succeeds exactly when the first 7 bytes are
`OK MPD `, in which case the rest of the greeting line is discarded and the
stream is left at the first byte after it; any other prefix fails with the
message `server did not greet with a success`. -/
theorem initHandshake (stream : List Char) :
    ((∃ rest, init stream = .ok rest) ↔ stream.take 7 = "OK MPD ".data) ∧
    (∀ version rest, '\n' ∉ version →
      init ("OK MPD ".data ++ (version ++ '\n' :: rest)) = .ok rest) ∧
    (stream.take 7 ≠ "OK MPD ".data →
      init stream = .error (.bail "server did not greet with a success")) := by
  refine ⟨⟨?_, ?_⟩, ?_, ?_⟩
  · rintro ⟨rest, hr⟩
    by_contra hne
    unfold init at hr
    rw [if_neg hne] at hr
    exact Except.noConfusion hr
  · intro he
    refine ⟨((stream.drop 7).dropWhile (· ≠ Char.ofNat 10)).drop 1, ?_⟩
    unfold init
    rw [if_pos he]
  · intro version rest hnl
    unfold init
    rw [if_pos (List.take_left' (by decide)), List.drop_left' (by decide),
      dropWhile_ne_newline version rest hnl]
    rfl
  · intro hne
    unfold init
    rw [if_neg hne]

/-- Witness for C4 (amended) at a concrete good and a concrete bad greeting. -/
theorem initHandshakeWitness :
    init ("OK MPD ".data ++ ("0.23.5".data ++ '\n' :: "next".data)) = .ok "next".data ∧
    init ("XX MPD x".data) = .error (.bail "server did not greet with a success") :=
  ⟨(initHandshake []).2.1 "0.23.5".data "next".data (by decide),
   (initHandshake ("XX MPD x".data)).2.2 (by decide)⟩

/-- C5: the idle result's first flag is set iff a `changed: options` or
`changed: player` line occurs before the sentinel, its second flag iff a
`changed: playlist` line does; other change classes are ignored, as on the two
documented examples. -/
theorem idleFlags :
    (∀ ls : List String,
      ((idleDecode ls).1 = true ↔ ∃ l ∈ ls.takeWhile (fun x => x != "OK"),
        l = "changed: options" ∨ l = "changed: player") ∧
      ((idleDecode ls).2 = true ↔ ∃ l ∈ ls.takeWhile (fun x => x != "OK"),
        l = "changed: playlist")) ∧
    idleDecode ["changed: player", "changed: playlist", "OK"] = (true, true) ∧
    idleDecode ["changed: database", "OK"] = (false, false) := by
  refine ⟨?_, by decide, by decide⟩
  intro ls
  unfold idleDecode
  rw [idleLoop_spec ls false false]
  constructor
  · simp [List.any_eq_true]
  · simp [List.any_eq_true]

/-- C6: inserting lines that none of the decoders' patterns match (and that
are not the sentinel) anywhere into a response changes no decoded result, for
the status, queue and idle decoders alike. -/
theorem ignoredLinesInvariance :
    (∀ ls ls', InsertIgn statusIgnored ls ls' → statusDecode ls' = statusDecode ls) ∧
    (∀ ls ls', InsertIgn queueIgnored ls ls' → queueDecode ls' = queueDecode ls) ∧
    (∀ ls ls', InsertIgn idleIgnored ls ls' → idleDecode ls' = idleDecode ls) := by
  refine ⟨?_, ?_, ?_⟩
  · intro ls ls' hins
    unfold statusDecode
    rw [statusLoop_insert hins]
  · intro ls ls' hins
    unfold queueDecode
    rw [queueLoop_insert hins]
  · intro ls ls' hins
    unfold idleDecode
    rw [idleLoop_insert hins]

/-- Witness for C6: one unknown field line inserted before the sentinel. -/
theorem ignoredLinesInvarianceWitness :
    statusDecode ["volume: 50", "OK"] = statusDecode ["OK"] :=
  ignoredLinesInvariance.1 ["OK"] ["volume: 50", "OK"]
    (.ins (by decide) (.keep .nil))

/-- C7: after any sentinel-free, successfully folded prefix, a line whose
numeric suffix fails to parse aborts the decode — for every continuation of
the response — with the numeric parse error, not with any default value or
any (partial) result; for the status decoder's three numeric fields and for
the queue decoder's `Time: ` field alike. -/
theorem numericParseAbort :
    (∀ (pre : List String) (l : String) (rest : List String) (acc : StatusAcc),
      (∀ x ∈ pre, x ≠ "OK") → statusLoop statusInit pre = .ok acc → badStatusNum l →
      statusDecode (pre ++ l :: rest) = .error .parseNum) ∧
    (∀ (pre : List String) (l : String) (rest : List String) (acc : QueueAcc),
      (∀ x ∈ pre, x ≠ "OK") → queueLoop queueInit pre = .ok acc → badQueueNum l →
      queueDecode (pre ++ l :: rest) = .error .parseNum) := by
  constructor
  · intro pre l rest acc hOK hloop hbad
    have hmid : statusLoop acc (l :: rest) = .error .parseNum := by
      rw [statusLoop_cons, if_neg (badStatusNum_ne_OK hbad), statusStep_badNum acc l hbad]
    unfold statusDecode
    rw [statusLoop_append pre (l :: rest) hOK, hloop]
    show (statusLoop acc (l :: rest)).bind statusFinish = .error .parseNum
    rw [hmid]
    rfl
  · intro pre l rest acc hOK hloop hbad
    have hmid : queueLoop acc (l :: rest) = .error .parseNum := by
      rw [queueLoop_cons, if_neg (badQueueNum_ne_OK hbad), queueStep_badNum acc l hbad]
    unfold queueDecode
    rw [queueLoop_append pre (l :: rest) hOK, hloop]
    show (queueLoop acc (l :: rest)).map queueFinish = .error .parseNum
    rw [hmid]
    rfl

/-- Witness for C7 at concrete malformed numeric lines. -/
theorem numericParseAbortWitness :
    statusDecode (["repeat: 1"] ++ "elapsed: abc" :: ["OK"]) = .error .parseNum ∧
    queueDecode (["file: a.mp3"] ++ "Time: x" :: ["OK"]) = .error .parseNum :=
  ⟨numericParseAbort.1 ["repeat: 1"] "elapsed: abc" ["OK"]
      { statusInit with «repeat» := some true } (by decide) (by decide) (by decide),
   numericParseAbort.2 ["file: a.mp3"] "Time: x" ["OK"]
      ⟨false, some "a.mp3", none, none, none, 0, []⟩ (by decide) (by decide) (by decide)⟩

/-- C8: in the play/command read loop, an `ACK `-prefixed line ends the loop at
exactly the same point an `OK` line does, and the operation's result is
success either way. -/
theorem sentinelTermination (pre : List String) (l : String) (rest : List String)
    (hpre : ∀ x ∈ pre, ¬ isSentinel x) (hl : isSentinel l) :
    commandRun (pre ++ l :: rest) = (.ok (), rest) := by
  unfold commandRun
  rw [commandLoop_skip pre hpre (l :: rest), commandLoop_sentinel l rest hl]

/-- Witness for C8: an ACK answer terminates the loop and yields success. -/
theorem sentinelTerminationWitness :
    commandRun (["foo"] ++ "ACK some error" :: ["bar"]) = (.ok (), ["bar"]) :=
  sentinelTermination ["foo"] "ACK some error" ["bar"] (by decide) (by decide)

/-- C9 counterexample: a transport read error mid-response is not surfaced —
with all required fields already seen, the status query returns a success
value despite the failed read. -/
theorem transportErrorCounterexample :
    statusDecodeEv [.line "repeat: 1", .line "random: 0", .line "single: 1",
        .line "consume: 0", .line "playlistlength: 2", .ioErr] =
      .ok { «repeat» := true, random := false, single := some true, consume := false,
            queue_len := 2, state := .Stop, song := none } := by decide

/-- C9 (amended): for the status, queue and idle read loops a transport read
error terminates the loop exactly like end of stream — the operation's result
is the decode of the lines delivered before the error, and no transport
failure is ever propagated out of the loop. -/
theorem transportErrorAsEof (es : List LineEvent) :
    statusDecodeEv es = statusDecode (linesUntilErr es) ∧
    queueDecodeEv es = queueDecode (linesUntilErr es) ∧
    idleDecodeEv es = idleDecode (linesUntilErr es) := by
  refine ⟨?_, ?_, ?_⟩
  · unfold statusDecodeEv statusDecode
    rw [statusLoopEv_eq]
  · unfold queueDecodeEv queueDecode
    rw [queueLoopEv_eq]
  · unfold idleDecodeEv idleDecode
    rw [idleLoopEv_eq]

/-- C10: the queue decoder's incomplete-playlist failure is unreachable: no
sequence of response lines whatsoever makes the queue query return it. -/
theorem incompletePlaylistUnreachable (ls : List String) :
    queueDecode ls ≠ .error (.bail "incomplete playlist response") := by
  unfold queueDecode
  intro h
  cases hq : queueLoop queueInit ls with
  | ok a =>
    rw [hq] at h
    exact Except.noConfusion h
  | error e =>
    rw [hq] at h
    have he : e = .bail "incomplete playlist response" := by
      simpa [Except.map] using h
    exact queueLoop_no_incomplete ls queueInit (fun hf => Bool.noConfusion hf)
      (hq.trans (by rw [he]))

end Encore
